import Mathlib

/-!
Shallow embedding of `iptables.py` (a thin wrapper around the external
`iptables` command-line tool) and proofs about it.

Python exceptions are modelled by the `PyError` sum type and fallible code
returns `Except PyError _`.  A spawned process's observable outcome
(`returncode`, captured stdout, captured stderr) is a `ProcResult`; the
external world is an oracle `env : List String → ProcResult` assigning an
outcome to each argument vector.  Python byte strings are modelled as
`String`.
-/

/-- Python exceptions raised by the code under study. -/
inductive PyError where
  | commandError (command : List String) (returncode : Int)
      (stdout : String) (stderr : String)
  | indexError
  | valueError (msg : String)
  | attributeError (attr : String)
  | keyError (key : String)
  | typeError
  deriving DecidableEq, Repr

/-- `true` exactly on the `CommandError` constructor (used to state that an
error is distinct from a process error). -/
def PyError.isCommandError : PyError → Bool
  | .commandError .. => true
  | _ => false

/-- The observable outcome of one spawned process:
`p.returncode`, and the two streams captured by `p.communicate()`. -/
structure ProcResult where
  returncode : Int
  stdout : String
  stderr : String
  deriving DecidableEq, Repr

/-- Line-break characters recognised by Python `str.splitlines`. -/
def isLineBreak (c : Char) : Bool :=
  c = '\n' || c = '\r' || c = '\x0b' || c = '\x0c' ||
  c = '\x1c' || c = '\x1d' || c = '\x1e' || c = '\x85' ||
  c = ' ' || c = ' '

/-- Core of `str.splitlines` on character lists: a break character ends the
current line (with `\r\n` counting as a single break); a final partial line
is kept, but a trailing break adds no empty line. -/
def splitlinesCore : List Char → List Char → List (List Char)
  | [], acc => if acc.isEmpty then [] else [acc]
  | '\r' :: '\n' :: cs, acc => acc :: splitlinesCore cs []
  | c :: cs, acc =>
      if isLineBreak c then acc :: splitlinesCore cs []
      else splitlinesCore cs (acc ++ [c])

/-- Python `s.splitlines()`. -/
def splitlines (s : String) : List String :=
  (splitlinesCore s.toList []).map String.mk

/-- Whitespace characters of `shlex` (`shlex.whitespace`). -/
def shWhitespace (c : Char) : Bool :=
  c = ' ' || c = '\t' || c = '\r' || c = '\n'

/-- A character with no special meaning to the POSIX `shlex` tokenizer:
not whitespace, not a quote, not the escape character. -/
def shOrdinary (c : Char) : Bool :=
  !(shWhitespace c) && !(c = '\\') && !(c = '\'') && !(c = '"')

/-- Tokenizer modes of POSIX-mode `shlex`: outside/inside a plain word,
after a backslash, inside single quotes, inside double quotes, and after a
backslash inside double quotes. -/
inductive ShMode where
  | norm
  | esc
  | squo
  | dquo
  | dquoEsc
  deriving DecidableEq, Repr

/-- The POSIX `shlex` word-splitting automaton (`shlex.split` with
`whitespace_split` on and comments off): whitespace separates tokens;
a backslash escapes the next character; single quotes are literal until the
closing quote; inside double quotes a backslash escapes only `"` and `\`
(and is otherwise kept).  `inW` records that the current token has been
started (by an ordinary character, an escape, or a quote, so that `''`
yields an empty token while bare whitespace yields none).  An unterminated
quote or a trailing escape raises `ValueError`. -/
def shlexRun : List Char → ShMode → Bool → List Char → List (List Char) →
    Except PyError (List (List Char))
  | [], .norm, inW, acc, toks => .ok (if inW then toks ++ [acc] else toks)
  | [], .esc, _, _, _ => .error (.valueError "No escaped character")
  | [], _, _, _, _ => .error (.valueError "No closing quotation")
  | c :: cs, .norm, inW, acc, toks =>
      if shWhitespace c then
        if inW then shlexRun cs .norm false [] (toks ++ [acc])
        else shlexRun cs .norm false [] toks
      else if c = '\\' then shlexRun cs .esc true acc toks
      else if c = '\'' then shlexRun cs .squo true acc toks
      else if c = '"' then shlexRun cs .dquo true acc toks
      else shlexRun cs .norm true (acc ++ [c]) toks
  | c :: cs, .esc, _, acc, toks => shlexRun cs .norm true (acc ++ [c]) toks
  | c :: cs, .squo, _, acc, toks =>
      if c = '\'' then shlexRun cs .norm true acc toks
      else shlexRun cs .squo true (acc ++ [c]) toks
  | c :: cs, .dquo, _, acc, toks =>
      if c = '"' then shlexRun cs .norm true acc toks
      else if c = '\\' then shlexRun cs .dquoEsc true acc toks
      else shlexRun cs .dquo true (acc ++ [c]) toks
  | c :: cs, .dquoEsc, _, acc, toks =>
      if c = '"' || c = '\\' then shlexRun cs .dquo true (acc ++ [c]) toks
      else shlexRun cs .dquo true (acc ++ ['\\', c]) toks

/-- Python `shlex.split(s)`. -/
def shlexSplit (s : String) : Except PyError (List String) :=
  (shlexRun s.toList .norm false [] []).map (List.map String.mk)

/-- A `Rule` is an immutable ordered sequence of string tokens. -/
def Rule : Type := List String

/-- The argument passed to `Rule.__new__`: either a single string or an
already-tokenized sequence. -/
inductive RuleArg where
  | ofString (s : String)
  | ofTokens (ts : List String)

/-- `Rule.__new__`: a string argument is tokenized with `shlex.split`
(which can raise `ValueError`); a sequence argument is stored as-is. -/
def Rule.new : RuleArg → Except PyError (List String)
  | .ofString s => shlexSplit s
  | .ofTokens ts => .ok ts

/-- `' '.join` of character lists: the characters of the tokens with a
single space between consecutive tokens. -/
def joinChars : List (List Char) → List Char
  | [] => []
  | [t] => t
  | t :: ts => t ++ ' ' :: joinChars ts

/-- `Rule.__str__`: `' '.join(self)`. -/
def Rule.toStr (r : List String) : String :=
  String.mk (joinChars (r.map String.toList))

/-- `cmd(*args)` applied to the outcome `res` of the spawned process.
Faithful to the source: on nonzero exit the debug-log arguments are
evaluated first, and `err.splitlines()[0]` raises `IndexError` when stderr
is empty; otherwise `CommandError(args, returncode, out, err)` is raised.
On zero exit the captured stdout is returned. -/
def cmd (args : List String) (res : ProcResult) : Except PyError String :=
  if res.returncode ≠ 0 then
    match splitlines res.stderr with
    | [] => .error .indexError
    | _ :: _ => .error (.commandError args res.returncode res.stdout res.stderr)
  else
    .ok res.stdout

/-- `CommandError.__repr__`: formats the exit status and the first line of
the carried stderr; `self.stderr.splitlines()[0]` raises `IndexError` when
that stderr is empty. -/
def CommandError.reprStr (returncode : Int) (stderr : String) :
    Except PyError String :=
  match splitlines stderr with
  | [] => .error .indexError
  | l :: _ => .ok ("<CommandError [" ++ toString returncode ++ "]: " ++ l ++ ">")

/-- Python list indexing `xs[i]`, raising `IndexError` when out of range. -/
def pyIndex (xs : List String) (i : Nat) : Except PyError String :=
  match xs.get? i with
  | some x => .ok x
  | none => .error .indexError

/-- The tokens prepended when a network namespace is configured:
`('ip', 'netns', 'exec', netns)`, else no tokens. -/
def nsTokens : Option String → List String
  | some ns => ["ip", "netns", "exec", ns]
  | none => []

/-- The full argument vector of one invocation made through a `Table`: the
namespace tokens, then `('iptables', '-w', '-t', name)`, then the
per-operation arguments. -/
def tableArgs (netns : Option String) (tname : String)
    (rest : List String) : List String :=
  nsTokens netns ++ ["iptables", "-w", "-t", tname] ++ rest

/-- `self.iptables`: the preconfigured invoker built in `Table.__init__`
from `cmd` and the argument prefix, run against the process oracle `env`. -/
def Table.invoker (env : List String → ProcResult) (netns : Option String)
    (tname : String) : List String → Except PyError String :=
  fun rest => cmd (tableArgs netns tname rest) (env (tableArgs netns tname rest))

/-- Loop body of `Chain.rules`: each listing line becomes a `Rule` via
`shlex.split`; lines whose first token is not `-A` are skipped; for kept
lines the first two tokens are stripped. -/
def Chain.rulesScan : List String → Except PyError (List (List String))
  | [] => .ok []
  | line :: rest => do
      let rule ← shlexSplit line
      let t0 ← pyIndex rule 0
      if t0 = "-A" then do
        let rs ← Chain.rulesScan rest
        .ok (rule.drop 2 :: rs)
      else Chain.rulesScan rest

/-- `Chain.rules`: lists the chain with `('-S', name)` and parses the
output lines. -/
def Chain.rules (ipt : List String → Except PyError String) (name : String) :
    Except PyError (List (List String)) := do
  let out ← ipt ["-S", name]
  Chain.rulesScan (splitlines out)

/-- `Chain.rule_exists`: invokes `('-C', name, *rule)`; a success returns
`True`; a `CommandError` with returncode 1 returns `False`; any other
`CommandError` is re-raised; non-`CommandError` exceptions propagate. -/
def Chain.rule_exists (ipt : List String → Except PyError String)
    (name : String) (rule : List String) : Except PyError Bool :=
  match ipt ("-C" :: name :: rule) with
  | .ok _ => .ok true
  | .error (.commandError c rc o e) =>
      if rc ≠ 1 then .error (.commandError c rc o e) else .ok false
  | .error e => .error e

/-- Loop body of the `Chain.policy` getter: returns token 2 of the first
listing line whose first token is `-P`; raises `ValueError` when no such
line exists. -/
def Chain.policyScan : List String → Except PyError String
  | [] => .error (.valueError "chain does not have default policy")
  | line :: rest => do
      let rule ← shlexSplit line
      let t0 ← pyIndex rule 0
      if t0 = "-P" then pyIndex rule 2
      else Chain.policyScan rest

/-- The `Chain.policy` property getter: lists the chain with
`('-S', name)` and scans for the `-P` line. -/
def Chain.policyGet (ipt : List String → Except PyError String)
    (name : String) : Except PyError String := do
  let out ← ipt ["-S", name]
  Chain.policyScan (splitlines out)

/-- The `Chain.policy` property setter: `('-P', name, value)`. -/
def Chain.policySet (ipt : List String → Except PyError String)
    (name value : String) : Except PyError String :=
  ipt ["-P", name, value]

/-- `Chain.append`: `('-A', name, *rule)`. -/
def Chain.appendRule (ipt : List String → Except PyError String)
    (name : String) (rule : List String) : Except PyError String :=
  ipt ("-A" :: name :: rule)

/-- `Chain.insert`: `('-I', name, str(pos), *rule)`. -/
def Chain.insertRule (ipt : List String → Except PyError String)
    (name : String) (rule : List String) (pos : Int) : Except PyError String :=
  ipt ("-I" :: name :: toString pos :: rule)

/-- `Chain.replace`: `('-R', name, str(pos), *rule)`. -/
def Chain.replaceRule (ipt : List String → Except PyError String)
    (name : String) (pos : Int) (rule : List String) : Except PyError String :=
  ipt ("-R" :: name :: toString pos :: rule)

/-- `Chain.zero`: `('-Z', name)`. -/
def Chain.zeroCounters (ipt : List String → Except PyError String)
    (name : String) : Except PyError String :=
  ipt ["-Z", name]

/-- `Chain.delete(rule=None, pos=None)`.  The second component records the
argument vectors passed to `self.iptables`, in order, so that the number of
invocations is observable.  A supplied `rule` wins over `pos`; with neither,
`ValueError` is raised and no invocation happens. -/
def Chain.delete (ipt : List String → Except PyError String) (name : String)
    (rule : Option (List String)) (pos : Option Int) :
    Except PyError String × List (List String) :=
  match rule with
  | some r => (ipt ("-D" :: name :: r), [("-D" :: name :: r)])
  | none =>
      match pos with
      | some p => (ipt ["-D", name, toString p], [["-D", name, toString p]])
      | none => (.error (.valueError "requires either rule or position"), [])

/-- `Chain.flush`: `('-F', name)`. -/
def Chain.flushRules (ipt : List String → Except PyError String)
    (name : String) : Except PyError String :=
  ipt ["-F", name]

/-- `Table.chain_exists`: probes with `('-S', chain)`; success is `True`;
any `CommandError` is caught and yields `False`; other exceptions
propagate. -/
def Table.chain_exists (ipt : List String → Except PyError String)
    (chain : String) : Except PyError Bool :=
  match ipt ["-S", chain] with
  | .ok _ => .ok true
  | .error (.commandError ..) => .ok false
  | .error e => .error e

/-- Loop body of `Table.list_chains`: yields token 1 of each listing line
whose first token is `-P` or `-N`. -/
def Table.listChainsScan : List String → Except PyError (List String)
  | [] => .ok []
  | line :: rest => do
      let rule ← shlexSplit line
      let t0 ← pyIndex rule 0
      if t0 = "-P" ∨ t0 = "-N" then do
        let c ← pyIndex rule 1
        let cs ← Table.listChainsScan rest
        .ok (c :: cs)
      else Table.listChainsScan rest

/-- `Table.list_chains`: lists the whole table with `('-S',)` and scans
for `-P`/`-N` lines. -/
def Table.list_chains (ipt : List String → Except PyError String) :
    Except PyError (List String) := do
  let out ← ipt ["-S"]
  Table.listChainsScan (splitlines out)

/-- `Table.get_chain`: raises `KeyError` when `chain_exists` is false,
otherwise returns the (name of the) chain bound to this table. -/
def Table.get_chain (ipt : List String → Except PyError String)
    (chain : String) : Except PyError String :=
  match Table.chain_exists ipt chain with
  | .ok true => .ok chain
  | .ok false => .error (.keyError chain)
  | .error e => .error e

/-- `Table.create_chain`: `('-N', chain)`, then `self.chains[chain]`. -/
def Table.create_chain (ipt : List String → Except PyError String)
    (chain : String) : Except PyError String := do
  let _ ← ipt ["-N", chain]
  Table.get_chain ipt chain

/-- `Table.delete_chain`: `('-X', chain)`. -/
def Table.delete_chain (ipt : List String → Except PyError String)
    (chain : String) : Except PyError String :=
  ipt ["-X", chain]

/-- `Table.flush_chain`: `('-F', chain)`. -/
def Table.flush_chain (ipt : List String → Except PyError String)
    (chain : String) : Except PyError String :=
  ipt ["-F", chain]

/-- `Table.flush_all`: `('-F',)`. -/
def Table.flush_all (ipt : List String → Except PyError String) :
    Except PyError String :=
  ipt ["-F"]

/-- `Table.zero_all`: `('-Z',)`. -/
def Table.zero_all (ipt : List String → Except PyError String) :
    Except PyError String :=
  ipt ["-Z"]

/-- Values held by a `Table` instance's attributes. -/
inductive PyVal where
  | str (s : String)
  | invokerVal
  | chainFinderVal
  deriving DecidableEq, Repr

/-- The instance attributes assigned in `Table.__init__`:
`self.name`, `self.iptables`, `self.chains`. -/
def Table.instanceDict (tname : String) : List (String × PyVal) :=
  [("name", .str tname), ("iptables", .invokerVal),
   ("chains", .chainFinderVal)]

/-- Python attribute lookup on a `Table` instance: a missing attribute
raises `AttributeError`. -/
def Table.getattr (tname : String) (a : String) : Except PyError PyVal :=
  match (Table.instanceDict tname).lookup a with
  | some v => .ok v
  | none => .error (.attributeError a)

/-- `Table.rule_exists` as written in the source: it evaluates
`self.chain[chain]` — an attribute lookup of `chain` on the instance,
followed (were it to succeed on a `ChainFinder`) by the chain lookup and
the delegation to `Chain.rule_exists`.  Subscripting a non-subscriptable
value would raise `TypeError`. -/
def Table.rule_exists (ipt : List String → Except PyError String)
    (tname : String) (chain : String) (rule : List String) :
    Except PyError Bool := do
  let v ← Table.getattr tname "chain"
  match v with
  | .chainFinderVal => do
      let cname ← Table.get_chain ipt chain
      Chain.rule_exists ipt cname rule
  | _ => .error .typeError

/-- The call sites of `self.iptables` in the source, one constructor per
distinct invocation shape. -/
inductive TableOp where
  | rulesOf (chain : String)
  | checkRule (chain : String) (rule : List String)
  | getPolicy (chain : String)
  | setPolicy (chain : String) (value : String)
  | appendTo (chain : String) (rule : List String)
  | insertAt (chain : String) (pos : Int) (rule : List String)
  | replaceAt (chain : String) (pos : Int) (rule : List String)
  | zeroOf (chain : String)
  | deleteRule (chain : String) (rule : List String)
  | deleteAt (chain : String) (pos : Int)
  | flushOf (chain : String)
  | probeChain (chain : String)
  | listAll
  | newChain (chain : String)
  | dropChain (chain : String)
  | flushAll
  | zeroAll
  deriving DecidableEq, Repr

/-- The per-operation arguments each call site passes to `self.iptables`. -/
def TableOp.subargs : TableOp → List String
  | .rulesOf c => ["-S", c]
  | .checkRule c r => "-C" :: c :: r
  | .getPolicy c => ["-S", c]
  | .setPolicy c v => ["-P", c, v]
  | .appendTo c r => "-A" :: c :: r
  | .insertAt c p r => "-I" :: c :: toString p :: r
  | .replaceAt c p r => "-R" :: c :: toString p :: r
  | .zeroOf c => ["-Z", c]
  | .deleteRule c r => "-D" :: c :: r
  | .deleteAt c p => ["-D", c, toString p]
  | .flushOf c => ["-F", c]
  | .probeChain c => ["-S", c]
  | .listAll => ["-S"]
  | .newChain c => ["-N", c]
  | .dropChain c => ["-X", c]
  | .flushAll => ["-F"]
  | .zeroAll => ["-Z"]

/-- The captured tool output of the worked example: three listing lines. -/
def exampleListing : String :=
  "-P INPUT ACCEPT\n-N LOGGING\n-A INPUT -j LOGGING"

/-- An invoker whose every call returns the worked example's listing. -/
def exampleIpt : List String → Except PyError String :=
  fun _ => .ok exampleListing

/-- An invoker whose every call fails with the tool's "not found" status. -/
def notFoundIpt : List String → Except PyError String :=
  fun args => .error (.commandError args 1 "" "iptables: No chain by that name.\n")

/-- An invoker whose every call fails with an unusual exit status. -/
def lockedIpt : List String → Except PyError String :=
  fun args =>
    .error (.commandError args 4 "" "Resource temporarily unavailable\n")

/-- An invoker returning a listing with no `-P` line. -/
def noPolicyIpt : List String → Except PyError String :=
  fun _ => .ok "-N LOGGING\n-A LOGGING -j LOG"

/-- C2: the claim says every nonzero exit of the spawned process makes `cmd`
raise a `CommandError` carrying the argument vector, exit status, stdout and
stderr.  The code instead raises `IndexError` when the captured stderr is
empty, because the debug-log line indexes `err.splitlines()[0]` before the
`CommandError` is constructed.  Evaluated here at the failing input
`cmd('false')` with returncode 1 and empty streams. -/
theorem C2_cmd_empty_stderr_raises_IndexError :
    cmd ["false"] { returncode := 1, stdout := "", stderr := "" }
      = .error .indexError ∧
    (PyError.indexError).isCommandError = false ∧
    cmd ["true"] { returncode := 0, stdout := "out", stderr := "" }
      = .ok "out" := by
  refine ⟨rfl, rfl, rfl⟩

/-- C10: for any invocation whose process exits nonzero with empty standard
error, `cmd` raises `IndexError` (from indexing the first line of the empty
stderr while building the failure log message) instead of reaching the
`CommandError` raise; and `CommandError.__repr__` likewise raises
`IndexError` when the carried stderr is empty. -/
theorem C10_empty_stderr_IndexError (args : List String) (rc : Int)
    (out : String) (h : rc ≠ 0) :
    cmd args { returncode := rc, stdout := out, stderr := "" }
      = .error .indexError ∧
    CommandError.reprStr rc "" = .error .indexError := by
  constructor
  · simp only [cmd, h, if_pos, ne_eq, not_false_eq_true, if_true]
    rfl
  · rfl

/-- Closed witness for C10 at returncode 2. -/
theorem C10_empty_stderr_IndexError_witness :
    (2 : Int) ≠ 0 ∧
    (cmd ["iptables", "-w", "-t", "filter", "-S"]
        { returncode := 2, stdout := "", stderr := "" }
      = .error .indexError ∧
    CommandError.reprStr 2 "" = .error .indexError) :=
  ⟨by decide, C10_empty_stderr_IndexError ["iptables", "-w", "-t", "filter", "-S"]
      2 "" (by decide)⟩






/-- Consuming a run of ordinary characters in normal mode appends them to
the current token and marks the token started when the run is non-empty. -/
theorem shlexRun_ordinary (t : List Char) (ht : ∀ c ∈ t, shOrdinary c = true) :
    ∀ (cs : List Char) (inW : Bool) (acc : List Char) (toks : List (List Char)),
    shlexRun (t ++ cs) .norm inW acc toks
      = shlexRun cs .norm (inW || !t.isEmpty) (acc ++ t) toks := by
  induction t with
  | nil => intro cs inW acc toks; simp
  | cons c t ih =>
    intro cs inW acc toks
    have hc : shOrdinary c = true := ht c (List.mem_cons_self c t)
    have ht' : ∀ c' ∈ t, shOrdinary c' = true :=
      fun c' h' => ht c' (List.mem_cons_of_mem c h')
    simp only [shOrdinary, Bool.and_eq_true, Bool.not_eq_true',
      decide_eq_false_iff_not] at hc
    obtain ⟨⟨⟨hw, hbs⟩, hsq⟩, hdq⟩ := hc
    simp only [List.cons_append, shlexRun, hw, Bool.false_eq_true, if_false,
      if_neg hbs, if_neg hsq, if_neg hdq, List.append_eq]
    rw [ih ht']
    simp [List.append_assoc]

/-- A space in normal mode with a started token emits the token. -/
theorem shlexRun_space (cs : List Char) (acc : List Char)
    (toks : List (List Char)) :
    shlexRun (' ' :: cs) .norm true acc toks
      = shlexRun cs .norm false [] (toks ++ [acc]) := by
  simp [shlexRun, shWhitespace]

/-- Splitting the space-join of non-empty all-ordinary tokens recovers
exactly those tokens. -/
theorem shlexRun_joinChars (T : List (List Char)) (hne : T ≠ [])
    (h : ∀ t ∈ T, t ≠ [] ∧ ∀ c ∈ t, shOrdinary c = true) :
    ∀ toks, shlexRun (joinChars T) .norm false [] toks = .ok (toks ++ T) := by
  induction T with
  | nil => exact absurd rfl hne
  | cons t T ih =>
    intro toks
    obtain ⟨htne, htord⟩ := h t (List.mem_cons_self t T)
    have htempty : t.isEmpty = false := by
      cases t with
      | nil => exact absurd rfl htne
      | cons a l => rfl
    cases T with
    | nil =>
      have h1 := shlexRun_ordinary t htord [] false [] toks
      simp only [List.append_nil, List.nil_append, Bool.false_or] at h1
      simp only [joinChars, h1, htempty, Bool.not_false, shlexRun,
        if_pos trivial]
    | cons t' T' =>
      have hj : joinChars (t :: t' :: T') = t ++ (' ' :: joinChars (t' :: T')) :=
        rfl
      rw [hj, shlexRun_ordinary t htord, htempty]
      simp only [Bool.not_false, Bool.false_or, List.nil_append]
      rw [shlexRun_space, ih (by simp)
        (fun u hu => h u (List.mem_cons_of_mem t hu))]
      simp


/-- A string whose character list is empty is the empty string. -/
theorem string_eq_empty_of_toList_eq_nil {s : String} (h : s.toList = []) :
    s = "" := by
  cases s with
  | mk data =>
    have hd : data = [] := h
    subst hd
    rfl

/-- C6 counterexample: the single-token sequence `['"x"']` is non-empty and
its token contains no whitespace, yet building a Rule from the space-join of
these tokens strips the quotes (`shlex` treats `"` specially), so
string-construction and sequence-construction disagree. -/
theorem C6_quote_token_counterexample :
    ((["\"x\""] : List String) ≠ [] ∧
      ∀ t ∈ (["\"x\""] : List String), ∀ c ∈ t.toList, shWhitespace c = false) ∧
    Rule.new (.ofString (Rule.toStr ["\"x\""])) ≠ Rule.new (.ofTokens ["\"x\""]) := by
  refine ⟨⟨by decide, by decide⟩, ?_⟩
  intro hcontra
  have h1 : Rule.new (.ofString (Rule.toStr ["\"x\""])) = .ok ["x"] := rfl
  have h2 : Rule.new (.ofTokens ["\"x\""]) = .ok ["\"x\""] := rfl
  rw [h1, h2] at hcontra
  exact absurd (List.cons.inj (Except.ok.inj hcontra)).1 (by decide)

/-- C6 (amended): for every non-empty sequence of non-empty tokens in which
no token contains whitespace, a quote character, or a backslash,
constructing a Rule from the sequence and constructing a Rule from the
space-join of the sequence (the render of a Rule built from it) yield equal
Rules. -/
theorem C6_rule_string_seq_agree (T : List String) (hne : T ≠ [])
    (h : ∀ t ∈ T, t ≠ "" ∧ ∀ c ∈ t.toList, shOrdinary c = true) :
    Rule.new (.ofString (Rule.toStr T)) = Rule.new (.ofTokens T) := by
  show shlexSplit (Rule.toStr T) = .ok T
  have hlist : (Rule.toStr T).toList = joinChars (T.map String.toList) := rfl
  rw [shlexSplit, hlist,
    shlexRun_joinChars (T.map String.toList)
      (by simpa using hne)
      (by
        intro u hu
        obtain ⟨s, hs, rfl⟩ := List.mem_map.mp hu
        obtain ⟨hsne, hsord⟩ := h s hs
        exact ⟨fun hnil => hsne (string_eq_empty_of_toList_eq_nil hnil), hsord⟩)
      []]
  show Except.ok (List.map String.mk (List.map String.toList T)) = Except.ok T
  rw [List.map_map]
  congr 1
  have hid : ∀ s : String, (String.mk ∘ String.toList) s = s := fun s => rfl
  calc List.map (String.mk ∘ String.toList) T
      = List.map id T := List.map_congr_left (fun s _ => hid s)
    _ = T := List.map_id T

/-- Closed witness for the amended C6 at the token sequence
`['-s', '192.168.1.0/24', '-j', 'ACCEPT']`. -/
theorem C6_rule_string_seq_agree_witness :
    Rule.new (.ofString (Rule.toStr ["-s", "192.168.1.0/24", "-j", "ACCEPT"]))
      = Rule.new (.ofTokens ["-s", "192.168.1.0/24", "-j", "ACCEPT"]) :=
  C6_rule_string_seq_agree ["-s", "192.168.1.0/24", "-j", "ACCEPT"]
    (by decide) (by decide)

/-- C5: on the captured tool output `-P INPUT ACCEPT` / `-N LOGGING` /
`-A INPUT -j LOGGING`, `list_chains()` yields exactly `['INPUT',
'LOGGING']`, chain INPUT's `rules()` yields exactly one Rule equal to
`['-j', 'LOGGING']`, and chain INPUT's `policy` equals `'ACCEPT'`. -/
theorem C5_worked_example :
    Table.list_chains exampleIpt = .ok ["INPUT", "LOGGING"] ∧
    Chain.rules exampleIpt "INPUT" = .ok [["-j", "LOGGING"]] ∧
    Chain.policyGet exampleIpt "INPUT" = .ok "ACCEPT" := by
  refine ⟨rfl, rfl, rfl⟩

/-- C1: the claim says `Table.rule_exists(chain_name, rule)` looks up the
chain by name and delegates to that chain's `rule_exists`.  The source
instead reads `self.chain[chain]`, but `Table.__init__` assigns only
`name`, `iptables` and `chains`; the attribute lookup of `chain` therefore
raises `AttributeError` on every call, and the delegation is never
reached.  Evaluated first at a concrete table/chain/rule. -/
theorem C1_rule_exists_AttributeError :
    Table.rule_exists exampleIpt "filter" "INPUT" ["-j", "LOGGING"]
      = .error (.attributeError "chain") ∧
    ∀ (ipt : List String → Except PyError String) (tname chain : String)
      (rule : List String),
      Table.rule_exists ipt tname chain rule
        = .error (.attributeError "chain") := by
  exact ⟨rfl, fun ipt tname chain rule => rfl⟩

/-- C3: `Chain.rule_exists(rule)` returns true when the check-rule
invocation succeeds (exit status zero), returns false exactly when the
invocation fails with a `CommandError` whose exit status is 1, and
re-raises the `CommandError` unchanged for any other exit status. -/
theorem C3_rule_exists_status (ipt : List String → Except PyError String)
    (name : String) (rule : List String) :
    (∀ out, ipt ("-C" :: name :: rule) = .ok out →
        Chain.rule_exists ipt name rule = .ok true) ∧
    (∀ c o e, ipt ("-C" :: name :: rule) = .error (.commandError c 1 o e) →
        Chain.rule_exists ipt name rule = .ok false) ∧
    (∀ c rc o e, rc ≠ 1 →
        ipt ("-C" :: name :: rule) = .error (.commandError c rc o e) →
        Chain.rule_exists ipt name rule = .error (.commandError c rc o e)) ∧
    (Chain.rule_exists ipt name rule = .ok false →
        ∃ c o e, ipt ("-C" :: name :: rule) = .error (.commandError c 1 o e)) := by
  refine ⟨?_, ?_, ?_, ?_⟩
  · intro out h
    simp [Chain.rule_exists, h]
  · intro c o e h
    simp [Chain.rule_exists, h]
  · intro c rc o e hrc h
    simp [Chain.rule_exists, h, hrc]
  · intro h
    unfold Chain.rule_exists at h
    cases hcall : ipt ("-C" :: name :: rule) with
    | ok v => rw [hcall] at h; exact absurd (Except.ok.inj h) (by decide)
    | error err =>
      rw [hcall] at h
      cases err with
      | commandError c rc o e =>
        by_cases hrc : rc = 1
        · subst hrc; exact ⟨c, o, e, rfl⟩
        · simp [hrc] at h
      | indexError => exact absurd h (by simp)
      | valueError m => exact absurd h (by simp)
      | attributeError a => exact absurd h (by simp)
      | keyError k => exact absurd h (by simp)
      | typeError => exact absurd h (by simp)

/-- Closed witness for C3: a check that fails with exit status 1 yields
`False`. -/
theorem C3_rule_exists_status_witness :
    Chain.rule_exists notFoundIpt "INPUT" ["-j", "ACCEPT"] = .ok false :=
  (C3_rule_exists_status notFoundIpt "INPUT" ["-j", "ACCEPT"]).2.1
    ["-C", "INPUT", "-j", "ACCEPT"] "" "iptables: No chain by that name.\n" rfl

/-- C4: `Chain.delete` with neither `rule` nor `pos` raises `ValueError`
(a local validation error, distinct from `CommandError`) and passes no
argument vector to the invoker; with exactly one of the two supplied it
invokes the tool's `-D` subcommand exactly once. -/
theorem C4_delete_validation (ipt : List String → Except PyError String)
    (name : String) :
    (Chain.delete ipt name none none
      = (.error (.valueError "requires either rule or position"), [])) ∧
    (PyError.valueError "requires either rule or position").isCommandError
      = false ∧
    (∀ r, Chain.delete ipt name (some r) none
      = (ipt ("-D" :: name :: r), [("-D" :: name :: r)])) ∧
    (∀ p, Chain.delete ipt name none (some p)
      = (ipt ["-D", name, toString p], [["-D", name, toString p]])) ∧
    (∀ r, ((Chain.delete ipt name (some r) none).2).length = 1) ∧
    (∀ p, ((Chain.delete ipt name none (some p)).2).length = 1) := by
  exact ⟨rfl, rfl, fun r => rfl, fun p => rfl, fun r => rfl, fun p => rfl⟩

/-- C8: `Table.chain_exists(name)` returns true when the `('-S', name)`
probe succeeds, and returns false for every `CommandError` failure of that
probe, whatever its exit status and payload. -/
theorem C8_chain_exists_coarse (ipt : List String → Except PyError String)
    (name : String) :
    (∀ out, ipt ["-S", name] = .ok out →
        Table.chain_exists ipt name = .ok true) ∧
    (∀ c rc o e, ipt ["-S", name] = .error (.commandError c rc o e) →
        Table.chain_exists ipt name = .ok false) := by
  constructor
  · intro out h
    simp [Table.chain_exists, h]
  · intro c rc o e h
    simp [Table.chain_exists, h]

/-- Closed witness for C8: a successful probe yields `True`; a probe
failing with exit status 4 still yields `False`. -/
theorem C8_chain_exists_coarse_witness :
    Table.chain_exists exampleIpt "INPUT" = .ok true ∧
    Table.chain_exists lockedIpt "INPUT" = .ok false :=
  ⟨(C8_chain_exists_coarse exampleIpt "INPUT").1 exampleListing rfl,
   (C8_chain_exists_coarse lockedIpt "INPUT").2
     ["-S", "INPUT"] 4 "" "Resource temporarily unavailable\n" rfl⟩

/-- A listing line whose first token is not `-P` is skipped by the policy
scan. -/
theorem policyScan_skip (l : String) (rest : List String) (t0 : String)
    (ts : List String) (hp : shlexSplit l = .ok (t0 :: ts)) (hne : t0 ≠ "-P") :
    Chain.policyScan (l :: rest) = Chain.policyScan rest := by
  simp [Chain.policyScan, hp, Except.instMonad, Except.bind, pyIndex, hne]

/-- A listing line parsing to `-P <chain> <value> ...` makes the policy
scan return the value token. -/
theorem policyScan_hit (l : String) (rest : List String) (cname v : String)
    (ts : List String) (hp : shlexSplit l = .ok ("-P" :: cname :: v :: ts)) :
    Chain.policyScan (l :: rest) = .ok v := by
  simp [Chain.policyScan, hp, Except.instMonad, Except.bind, pyIndex]

/-- When every line parses to a token list not starting with `-P`, the
policy scan raises the domain `ValueError`. -/
theorem policyScan_none (ls : List String)
    (h : ∀ l ∈ ls, ∃ t0 ts, shlexSplit l = .ok (t0 :: ts) ∧ t0 ≠ "-P") :
    Chain.policyScan ls
      = .error (.valueError "chain does not have default policy") := by
  induction ls with
  | nil => rfl
  | cons l rest ih =>
    obtain ⟨t0, ts, hp, hne⟩ := h l (List.mem_cons_self l rest)
    rw [policyScan_skip l rest t0 ts hp hne]
    exact ih (fun l' hl' => h l' (List.mem_cons_of_mem l hl'))

/-- C9: reading `Chain.policy` lists this chain with `('-S', name)` and
scans the output for the first line whose first token is `-P`, returning
that line's third token (the policy value); when no such line is present it
raises `ValueError` — a domain-level error that is not a `CommandError`. -/
theorem C9_policy_scan :
    (∀ (ipt : List String → Except PyError String) (name out : String)
        (pre : List String) (line : String) (post : List String)
        (cname v : String) (ts : List String),
      ipt ["-S", name] = .ok out →
      splitlines out = pre ++ line :: post →
      (∀ l ∈ pre, ∃ t0 ts', shlexSplit l = .ok (t0 :: ts') ∧ t0 ≠ "-P") →
      shlexSplit line = .ok ("-P" :: cname :: v :: ts) →
      Chain.policyGet ipt name = .ok v) ∧
    (∀ (ipt : List String → Except PyError String) (name out : String),
      ipt ["-S", name] = .ok out →
      (∀ l ∈ splitlines out,
          ∃ t0 ts', shlexSplit l = .ok (t0 :: ts') ∧ t0 ≠ "-P") →
      Chain.policyGet ipt name
        = .error (.valueError "chain does not have default policy") ∧
      (PyError.valueError "chain does not have default policy").isCommandError
        = false) := by
  constructor
  · intro ipt name out pre line post cname v ts hipt hsplit hpre hline
    unfold Chain.policyGet
    rw [hipt]
    show Chain.policyScan (splitlines out) = .ok v
    rw [hsplit]
    clear hsplit
    induction pre with
    | nil => exact policyScan_hit line post cname v ts hline
    | cons p pre ih =>
      obtain ⟨t0, ts', hp, hne⟩ := hpre p (List.mem_cons_self p pre)
      rw [List.cons_append, policyScan_skip p (pre ++ line :: post) t0 ts' hp hne]
      exact ih (fun l hl => hpre l (List.mem_cons_of_mem p hl))
  · intro ipt name out hipt hall
    refine ⟨?_, rfl⟩
    unfold Chain.policyGet
    rw [hipt]
    exact policyScan_none (splitlines out) hall

/-- Closed witness for C9: the worked example's chain INPUT reads policy
`ACCEPT`, and a chain whose listing has no `-P` line raises the domain
`ValueError`. -/
theorem C9_policy_scan_witness :
    Chain.policyGet exampleIpt "INPUT" = .ok "ACCEPT" ∧
    Chain.policyGet noPolicyIpt "LOGGING"
      = .error (.valueError "chain does not have default policy") := by
  constructor
  · exact C9_policy_scan.1 exampleIpt "INPUT" exampleListing []
      "-P INPUT ACCEPT" ["-N LOGGING", "-A INPUT -j LOGGING"]
      "INPUT" "ACCEPT" [] rfl rfl (by intro l hl; cases hl) rfl
  · refine (C9_policy_scan.2 noPolicyIpt "LOGGING" "-N LOGGING\n-A LOGGING -j LOG"
      rfl ?_).1
    intro l hl
    have hls : splitlines "-N LOGGING\n-A LOGGING -j LOG"
        = ["-N LOGGING", "-A LOGGING -j LOG"] := rfl
    rw [hls] at hl
    simp only [List.mem_cons, List.mem_singleton, List.not_mem_nil,
      or_false] at hl
    rcases hl with h | h
    · exact ⟨"-N", ["LOGGING"], by subst h; rfl, by decide⟩
    · exact ⟨"-A", ["LOGGING", "-j", "LOG"], by subst h; rfl, by decide⟩

/-- C7 counterexample: with namespace `ns0` configured, the tokens
preceding the tool name are `ip netns exec ns0` — four tokens, not a fixed
three-token sequence as the claim states. -/
theorem C7_ns_four_tokens_counterexample :
    tableArgs (some "ns0") "filter" TableOp.flushAll.subargs
      = ["ip", "netns", "exec", "ns0", "iptables", "-w", "-t", "filter", "-F"] ∧
    ((tableArgs (some "ns0") "filter" TableOp.flushAll.subargs).takeWhile
        (fun t => t ≠ "iptables")).length ≠ 3 := by
  exact ⟨rfl, by decide⟩

/-- C7 (amended): every external invocation built by a Table has the
argument vector `[namespace tokens] iptables -w -t <table> <subcommand>
[chain] [position] [rule tokens...]`, where the namespace tokens are
present exactly when a namespace is configured and consist of the fixed
three tokens `ip netns exec` followed by the namespace name (four tokens in
all) preceding the tool name, and `-w` is always passed.  The last group of
conjuncts pins each call site's per-operation arguments to the
corresponding `TableOp`. -/
theorem C7_invocation_shape (netns : Option String) (tname : String)
    (op : TableOp) :
    (tableArgs netns tname op.subargs
      = nsTokens netns ++ "iptables" :: "-w" :: "-t" :: tname :: op.subargs) ∧
    (nsTokens none = [] ∧ ∀ ns, nsTokens (some ns) = ["ip", "netns", "exec", ns]) ∧
    "-w" ∈ tableArgs netns tname op.subargs ∧
    (∃ sub chainPart posPart rulePart,
        op.subargs = sub :: (chainPart ++ posPart ++ rulePart) ∧
        chainPart.length ≤ 1 ∧ posPart.length ≤ 1) ∧
    (∀ env rest, Table.invoker env netns tname rest
      = cmd (tableArgs netns tname rest) (env (tableArgs netns tname rest))) ∧
    (∀ ipt name, Chain.rules ipt name
      = (ipt (TableOp.subargs (.rulesOf name)) >>= fun out =>
          Chain.rulesScan (splitlines out))) ∧
    (∀ ipt name, Chain.policyGet ipt name
      = (ipt (TableOp.subargs (.getPolicy name)) >>= fun out =>
          Chain.policyScan (splitlines out))) ∧
    (∀ ipt ipt' name rule,
        ipt (TableOp.subargs (.checkRule name rule))
          = ipt' (TableOp.subargs (.checkRule name rule)) →
        Chain.rule_exists ipt name rule = Chain.rule_exists ipt' name rule) ∧
    (∀ ipt ipt' chain,
        ipt (TableOp.subargs (.probeChain chain))
          = ipt' (TableOp.subargs (.probeChain chain)) →
        Table.chain_exists ipt chain = Table.chain_exists ipt' chain) ∧
    (∀ ipt, Table.list_chains ipt
      = (ipt (TableOp.subargs .listAll) >>= fun out =>
          Table.listChainsScan (splitlines out))) ∧
    (∀ ipt name value, Chain.policySet ipt name value
      = ipt (TableOp.subargs (.setPolicy name value))) ∧
    (∀ ipt name rule, Chain.appendRule ipt name rule
      = ipt (TableOp.subargs (.appendTo name rule))) ∧
    (∀ ipt name pos rule, Chain.insertRule ipt name rule pos
      = ipt (TableOp.subargs (.insertAt name pos rule))) ∧
    (∀ ipt name pos rule, Chain.replaceRule ipt name pos rule
      = ipt (TableOp.subargs (.replaceAt name pos rule))) ∧
    (∀ ipt name, Chain.zeroCounters ipt name
      = ipt (TableOp.subargs (.zeroOf name))) ∧
    (∀ ipt name rule, (Chain.delete ipt name (some rule) none)
      = (ipt (TableOp.subargs (.deleteRule name rule)),
         [TableOp.subargs (.deleteRule name rule)])) ∧
    (∀ ipt name pos, (Chain.delete ipt name none (some pos))
      = (ipt (TableOp.subargs (.deleteAt name pos)),
         [TableOp.subargs (.deleteAt name pos)])) ∧
    (∀ ipt name, Chain.flushRules ipt name
      = ipt (TableOp.subargs (.flushOf name))) ∧
    (∀ ipt chain, Table.create_chain ipt chain
      = (ipt (TableOp.subargs (.newChain chain)) >>= fun _ =>
          Table.get_chain ipt chain)) ∧
    (∀ ipt chain, Table.delete_chain ipt chain
      = ipt (TableOp.subargs (.dropChain chain))) ∧
    (∀ ipt chain, Table.flush_chain ipt chain
      = ipt (TableOp.subargs (.flushOf chain))) ∧
    (∀ ipt, Table.flush_all ipt = ipt (TableOp.subargs .flushAll)) ∧
    (∀ ipt, Table.zero_all ipt = ipt (TableOp.subargs .zeroAll)) := by
  refine ⟨?_, ⟨rfl, fun ns => rfl⟩, ?_, ?_, fun env rest => rfl,
    fun ipt name => rfl, fun ipt name => rfl, ?_, ?_, fun ipt => rfl,
    fun ipt name value => rfl, fun ipt name rule => rfl,
    fun ipt name pos rule => rfl, fun ipt name pos rule => rfl,
    fun ipt name => rfl, fun ipt name rule => rfl, fun ipt name pos => rfl,
    fun ipt name => rfl, fun ipt chain => rfl, fun ipt chain => rfl,
    fun ipt chain => rfl, fun ipt => rfl, fun ipt => rfl⟩
  · simp [tableArgs, List.append_assoc]
  · cases netns with
    | none => simp [tableArgs, nsTokens]
    | some ns => simp [tableArgs, nsTokens]
  · cases op with
    | rulesOf c => exact ⟨"-S", [c], [], [], rfl, by simp, by simp⟩
    | checkRule c r => exact ⟨"-C", [c], [], r, rfl, by simp, by simp⟩
    | getPolicy c => exact ⟨"-S", [c], [], [], rfl, by simp, by simp⟩
    | setPolicy c v => exact ⟨"-P", [c], [], [v], rfl, by simp, by simp⟩
    | appendTo c r => exact ⟨"-A", [c], [], r, rfl, by simp, by simp⟩
    | insertAt c p r =>
        exact ⟨"-I", [c], [toString p], r, rfl, by simp, by simp⟩
    | replaceAt c p r =>
        exact ⟨"-R", [c], [toString p], r, rfl, by simp, by simp⟩
    | zeroOf c => exact ⟨"-Z", [c], [], [], rfl, by simp, by simp⟩
    | deleteRule c r => exact ⟨"-D", [c], [], r, rfl, by simp, by simp⟩
    | deleteAt c p =>
        exact ⟨"-D", [c], [toString p], [], rfl, by simp, by simp⟩
    | flushOf c => exact ⟨"-F", [c], [], [], rfl, by simp, by simp⟩
    | probeChain c => exact ⟨"-S", [c], [], [], rfl, by simp, by simp⟩
    | listAll => exact ⟨"-S", [], [], [], rfl, by simp, by simp⟩
    | newChain c => exact ⟨"-N", [c], [], [], rfl, by simp, by simp⟩
    | dropChain c => exact ⟨"-X", [c], [], [], rfl, by simp, by simp⟩
    | flushAll => exact ⟨"-F", [], [], [], rfl, by simp, by simp⟩
    | zeroAll => exact ⟨"-Z", [], [], [], rfl, by simp, by simp⟩
  · intro ipt ipt' name rule h
    unfold Chain.rule_exists
    rw [show ("-C" :: name :: rule) = TableOp.subargs (.checkRule name rule)
      from rfl, h]
  · intro ipt ipt' chain h
    unfold Table.chain_exists
    rw [show (["-S", chain]) = TableOp.subargs (.probeChain chain) from rfl, h]

/-- Closed witness for the amended C7: the full argument vector of a
set-policy call on table `filter` inside namespace `ns0`. -/
theorem C7_invocation_shape_witness :
    tableArgs (some "ns0") "filter" (TableOp.setPolicy "INPUT" "DROP").subargs
      = nsTokens (some "ns0") ++ "iptables" :: "-w" :: "-t" :: "filter"
          :: (TableOp.setPolicy "INPUT" "DROP").subargs :=
  (C7_invocation_shape (some "ns0") "filter" (.setPolicy "INPUT" "DROP")).1
